import Mathlib

/-!
Verification of the glTF decoder/codec (files `decoder.go`, `struct.go`).

The development shallowly embeds the Go code: byte strings become `List Char`,
Go `float64` values appearing in the document model become `ℚ` (the claims only
exercise decimal-exact values, where Go's shortest float formatting agrees with
exact decimal rendering), fallible operations return `Except`/`Option`, and the
in-place mutation of the decoder is explicit state passing.  Constants that the
code references from a file not present in the source tree (`DefaultMatrix`,
the GLB magic numbers, the data-URI marker, ...) are modelled from the spec and
marked as such.
-/

set_option maxRecDepth 20000

namespace Gltf

/-- Byte strings of the Go code are modelled as lists of characters. -/
abbrev Str := List Char

/-- The character `{` (written via its code point to keep string literals brace-free). -/
def braceOpen : Char := Char.ofNat 123

/-- The character `}`. -/
def braceClose : Char := Char.ofNat 125

/-- `startsWithStr pat s` is Go's `strings.HasPrefix s pat` / `bytes.HasPrefix`. -/
def startsWithStr (pat s : Str) : Bool :=
  List.isPrefixOf pat s

/-- `hasSub pat s` is Go's `strings.Contains s pat`: does `pat` occur
(contiguously) anywhere in `s`? -/
def hasSub (pat : Str) : Str → Bool
  | [] => List.isPrefixOf pat []
  | c :: rest => List.isPrefixOf pat (c :: rest) || hasSub pat rest

/-- Split `s` around the first occurrence of `pat`: returns the part before the
occurrence and the part after it, or `none` when `pat` does not occur. -/
def splitFirst (pat : Str) : Str → Option (Str × Str)
  | [] => if List.isPrefixOf pat ([] : Str) then some ([], []) else none
  | c :: rest =>
    if List.isPrefixOf pat (c :: rest) then some ([], List.drop pat.length (c :: rest))
    else match splitFirst pat rest with
      | some (a, b) => some (c :: a, b)
      | none => none

/-- Go's `bytes.Replace(s, pat, rep, 1)`: replace the first occurrence of `pat`
by `rep` (when `pat` is empty Go inserts `rep` at the front, which the model
reproduces). -/
def replaceFirst (pat rep s : Str) : Str :=
  match splitFirst pat s with
  | some (a, b) => a ++ rep ++ b
  | none => s

/-- `removeProperty` from `struct.go`: delete the first occurrence of `str`
from the serialized JSON, then collapse one resulting `,,` to `,`. -/
def removeProperty (str b : Str) : Str :=
  replaceFirst (',' :: [','] ) [','] (replaceFirst str [] b)

/-- `sanitizeJSON` from `struct.go`: repair one `{,` and one `,}` left behind
by `removeProperty`. -/
def sanitizeJSON (b : Str) : Str :=
  replaceFirst [',', braceClose] [braceClose] (replaceFirst [braceOpen, ','] [braceOpen] b)

/-- Decimal digits of a natural number. -/
def renderNatC (n : Nat) : Str :=
  (Nat.repr n).data

/-- Decimal digits of the fractional part `num/den` (0 < num < den), produced
like Go's shortest decimal formatting on decimal-exact values; `fuel` bounds
the number of digits (every value the claims touch terminates well within it). -/
def fracDigits : Nat → Nat → Nat → Str
  | 0, _, _ => []
  | _ + 1, 0, _ => []
  | fuel + 1, num, den =>
    let r := num * 10
    Nat.digitChar (r / den) :: fracDigits fuel (r % den) den

/-- Rendering of a nonnegative rational in decimal, as Go's `encoding/json`
prints the corresponding `float64` (claims only use decimal-exact values). -/
def renderRatNN (q : ℚ) : Str :=
  let n := q.num.toNat
  let d := q.den
  if n % d = 0 then renderNatC (n / d)
  else renderNatC (n / d) ++ '.' :: fracDigits 64 (n % d) d

/-- Rendering of a rational in decimal (Go float formatting on exact decimals). -/
def renderRat (q : ℚ) : Str :=
  if q < 0 then '-' :: renderRatNN (-q) else renderRatNN q

/-- JSON values, as produced by Go's `encoding/json` generic decoding
(`interface{}` values): numbers are `float64` (modelled as `ℚ`).  Object
fields are kept in a list; Go sorts map keys when encoding, so decoded values
held in the model are taken to carry their keys already sorted. -/
inductive Json where
  | null
  | bool (b : Bool)
  | num (q : ℚ)
  | str (s : Str)
  | arr (elems : List Json)
  | obj (fields : List (Str × Json))

/-- One hexadecimal digit (lower case), as `encoding/json` prints `\u00XX`. -/
def hexDigit (n : Nat) : Char :=
  if n < 10 then Nat.digitChar n else Char.ofNat (97 + (n - 10))

/-- Go `encoding/json` string escaping for one character: quotes and
backslashes are escaped, `<`, `>`, `&` become `\u00XX` (HTML-safe mode, the
default), control characters become `\n`, `\r`, `\t` or `\u00XX`. -/
def escapeChar (c : Char) : Str :=
  if c = '"' then ['\\', '"']
  else if c = '\\' then ['\\', '\\']
  else if c = '<' then '\\' :: 'u' :: '0' :: '0' :: '3' :: ['c']
  else if c = '>' then '\\' :: 'u' :: '0' :: '0' :: '3' :: ['e']
  else if c = '&' then '\\' :: 'u' :: '0' :: '0' :: '2' :: ['6']
  else if c = Char.ofNat 10 then ['\\', 'n']
  else if c = Char.ofNat 13 then ['\\', 'r']
  else if c = Char.ofNat 9 then ['\\', 't']
  else if c.toNat < 32 then
    '\\' :: 'u' :: '0' :: '0' :: hexDigit (c.toNat / 16) :: [hexDigit (c.toNat % 16)]
  else [c]

/-- Go `encoding/json` rendering of a string value, quotes included. -/
def renderStrC (s : Str) : Str :=
  '"' :: (s.map escapeChar).flatten ++ ['"']

mutual

/-- Go `encoding/json` rendering of a generic JSON value. -/
def renderJson : Json → Str
  | .null => 'n' :: 'u' :: 'l' :: ['l']
  | .bool true => 't' :: 'r' :: 'u' :: ['e']
  | .bool false => 'f' :: 'a' :: 'l' :: 's' :: ['e']
  | .num q => renderRat q
  | .str s => renderStrC s
  | .arr es => '[' :: renderJsonSeq es ++ [']']
  | .obj fs => braceOpen :: renderJsonObjSeq fs ++ [braceClose]

/-- Comma-separated rendering of array elements. -/
def renderJsonSeq : List Json → Str
  | [] => []
  | [e] => renderJson e
  | e :: e2 :: rest => renderJson e ++ ',' :: renderJsonSeq (e2 :: rest)

/-- Comma-separated rendering of object members. -/
def renderJsonObjSeq : List (Str × Json) → Str
  | [] => []
  | [kv] => renderStrC kv.1 ++ ':' :: renderJson kv.2
  | kv :: kv2 :: rest => renderStrC kv.1 ++ ':' :: renderJson kv.2 ++ ',' :: renderJsonObjSeq (kv2 :: rest)

end

/-! ### Spec-modelled constants

The repository references constants (`DefaultMatrix`, `emptyMatrix`, the GLB
magic numbers, the data-URI marker, the default quotas of `NewDecoder`, ...)
whose defining file is not under `src/`.  They are modelled from the spec. -/

/-- Modelled from the spec: the spec default for `node.matrix` is the identity
matrix (column-major `[16]float64`). -/
def DefaultMatrix : List ℚ :=
  [1, 0, 0, 0, 0, 1, 0, 0, 0, 0, 1, 0, 0, 0, 0, 1]

/-- Modelled from the spec: the all-zero "never initialized" sentinel for
`node.matrix`. -/
def emptyMatrix : List ℚ :=
  [0, 0, 0, 0, 0, 0, 0, 0, 0, 0, 0, 0, 0, 0, 0, 0]

/-- Modelled from the spec: the spec default for `node.rotation`, the identity
quaternion `(0,0,0,1)`. -/
def DefaultRotation : List ℚ := [0, 0, 0, 1]

/-- Modelled from the spec: the all-zero sentinel for `node.rotation`. -/
def emptyRotation : List ℚ := [0, 0, 0, 0]

/-- Modelled from the spec: the spec default for `node.scale`, unit scale. -/
def DefaultScale : List ℚ := [1, 1, 1]

/-- Modelled from the spec: the all-zero sentinel for `node.scale`. -/
def emptyScale : List ℚ := [0, 0, 0]

/-- Modelled from the spec: the spec default for `node.translation` (which is
itself the zero vector, so it has no separate sentinel). -/
def DefaultTranslation : List ℚ := [0, 0, 0]

/-- Modelled from the spec: GLB header magic `0x46546C67`. -/
def glbHeaderMagic : Nat := 0x46546C67

/-- Modelled from the spec: the JSON chunk type constant `0x4E4F534A`. -/
def glbChunkJSON : Nat := 0x4E4F534A

/-- Modelled from the spec: the binary chunk type constant `0x004E4942`. -/
def glbChunkBIN : Nat := 0x004E4942

/-- Modelled from the spec: the embedded-buffer data-URI marker
`data:application/octet-stream;base64` (the payload follows after a comma). -/
def mimetypeApplicationOctet : Str :=
  ("data:application/octet-stream;base64").data

/-! ### The Node model (`struct.go`) -/

/-- The `Node` struct of `struct.go`, restricted to its JSON-visible fields.
`extensions` holds the decoded extension map as raw key/payload pairs (the
typed dispatch of `Extensions.UnmarshalJSON` is modelled separately below);
pointer-typed fields (`camera`, `skin`, `mesh`) become `Option`;
`Matrix`/`Rotation`/`Scale`/`Translation` are the fixed-size `float64` arrays. -/
structure NodeM where
  extensions : List (Str × Json) := []
  extras : Option Json := none
  name : Str := []
  camera : Option Nat := none
  children : List Nat := []
  skin : Option Nat := none
  matrix : List ℚ := DefaultMatrix
  mesh : Option Nat := none
  rotation : List ℚ := DefaultRotation
  scale : List ℚ := DefaultScale
  translation : List ℚ := DefaultTranslation
  weights : List ℚ := []

/-- Render one serialized JSON object member `"key":value`. -/
def fieldKV (k : String) (v : Str) : Str :=
  '"' :: k.data ++ '"' :: ':' :: v

/-- Render a JSON array of naturals (Go `[]uint32`). -/
def renderNatList (l : List Nat) : Str :=
  '[' :: List.intercalate [','] (l.map renderNatC) ++ [']']

/-- Render a JSON array of numbers (Go `[]float64` / `[16]float64` / ...). -/
def renderRatList (l : List ℚ) : Str :=
  '[' :: List.intercalate [','] (l.map renderRat) ++ [']']

/-- The ordered field list of Go's struct serialization of `Node` (the `alias`
type of `Node.MarshalJSON`): fields appear in declaration order, `omitempty`
fields are left out at their zero value, the four transform arrays are always
emitted. -/
def nodeFields (n : NodeM) : List Str :=
  (if n.extensions.isEmpty then [] else [fieldKV "extensions" (renderJson (Json.obj n.extensions))]) ++
  (match n.extras with
    | some j => [fieldKV "extras" (renderJson j)]
    | none => []) ++
  (if n.name = [] then [] else [fieldKV "name" (renderStrC n.name)]) ++
  (match n.camera with
    | some c => [fieldKV "camera" (renderNatC c)]
    | none => []) ++
  (if n.children = [] then [] else [fieldKV "children" (renderNatList n.children)]) ++
  (match n.skin with
    | some s => [fieldKV "skin" (renderNatC s)]
    | none => []) ++
  [fieldKV "matrix" (renderRatList n.matrix)] ++
  (match n.mesh with
    | some m => [fieldKV "mesh" (renderNatC m)]
    | none => []) ++
  [fieldKV "rotation" (renderRatList n.rotation)] ++
  [fieldKV "scale" (renderRatList n.scale)] ++
  [fieldKV "translation" (renderRatList n.translation)] ++
  (if n.weights = [] then [] else [fieldKV "weights" (renderRatList n.weights)])

/-- `json.Marshal` of the `alias` struct inside `Node.MarshalJSON`: plain
structured serialization, before any default removal. -/
def nodeMarshalBase (n : NodeM) : Str :=
  braceOpen :: List.intercalate [','] (nodeFields n) ++ [braceClose]

/-- The removal pattern `"matrix":[1,0,0,0,0,1,0,0,0,0,1,0,0,0,0,1]`. -/
def patMatrixDefault : Str :=
  ("\"matrix\":[1,0,0,0,0,1,0,0,0,0,1,0,0,0,0,1]").data

/-- The removal pattern `"matrix":[0,0,0,0,0,0,0,0,0,0,0,0,0,0,0,0]`. -/
def patMatrixEmpty : Str :=
  ("\"matrix\":[0,0,0,0,0,0,0,0,0,0,0,0,0,0,0,0]").data

/-- The removal pattern `"rotation":[0,0,0,1]`. -/
def patRotationDefault : Str := ("\"rotation\":[0,0,0,1]").data

/-- The removal pattern `"rotation":[0,0,0,0]`. -/
def patRotationEmpty : Str := ("\"rotation\":[0,0,0,0]").data

/-- The removal pattern `"scale":[1,1,1]`. -/
def patScaleDefault : Str := ("\"scale\":[1,1,1]").data

/-- The removal pattern `"scale":[0,0,0]`. -/
def patScaleEmpty : Str := ("\"scale\":[0,0,0]").data

/-- The removal pattern `"translation":[0,0,0]`. -/
def patTranslationDefault : Str := ("\"translation\":[0,0,0]").data

/-- `Node.MarshalJSON` from `struct.go`: serialize the alias struct, then
textually remove the default / all-zero-sentinel transform properties with
`removeProperty`, and finally `sanitizeJSON` the result. -/
def nodeMarshalJSON (n : NodeM) : Str :=
  let out := nodeMarshalBase n
  let out :=
    if n.matrix = DefaultMatrix then removeProperty patMatrixDefault out
    else if n.matrix = emptyMatrix then removeProperty patMatrixEmpty out
    else out
  let out :=
    if n.rotation = DefaultRotation then removeProperty patRotationDefault out
    else if n.rotation = emptyRotation then removeProperty patRotationEmpty out
    else out
  let out :=
    if n.scale = DefaultScale then removeProperty patScaleDefault out
    else if n.scale = emptyScale then removeProperty patScaleEmpty out
    else out
  let out :=
    if n.translation = DefaultTranslation then removeProperty patTranslationDefault out
    else out
  sanitizeJSON out

/-- Modelled from the spec: the structured conditional field emission that the
spec prescribes for `Node` encoding — each transform property's omission is
decided before serialization (default or all-zero sentinel omitted), and no
post-serialization text surgery happens.  (The encoder entry point of the
repository is not under `src/`.) -/
def nodeMarshalStructured (n : NodeM) : Str :=
  let fields :=
    (if n.extensions.isEmpty then [] else [fieldKV "extensions" (renderJson (Json.obj n.extensions))]) ++
    (match n.extras with
      | some j => [fieldKV "extras" (renderJson j)]
      | none => []) ++
    (if n.name = [] then [] else [fieldKV "name" (renderStrC n.name)]) ++
    (match n.camera with
      | some c => [fieldKV "camera" (renderNatC c)]
      | none => []) ++
    (if n.children = [] then [] else [fieldKV "children" (renderNatList n.children)]) ++
    (match n.skin with
      | some s => [fieldKV "skin" (renderNatC s)]
      | none => []) ++
    (if n.matrix = DefaultMatrix ∨ n.matrix = emptyMatrix then []
      else [fieldKV "matrix" (renderRatList n.matrix)]) ++
    (match n.mesh with
      | some m => [fieldKV "mesh" (renderNatC m)]
      | none => []) ++
    (if n.rotation = DefaultRotation ∨ n.rotation = emptyRotation then []
      else [fieldKV "rotation" (renderRatList n.rotation)]) ++
    (if n.scale = DefaultScale ∨ n.scale = emptyScale then []
      else [fieldKV "scale" (renderRatList n.scale)]) ++
    (if n.translation = DefaultTranslation then []
      else [fieldKV "translation" (renderRatList n.translation)]) ++
    (if n.weights = [] then [] else [fieldKV "weights" (renderRatList n.weights)])
  braceOpen :: List.intercalate [','] fields ++ [braceClose]

/-! ### JSON-to-struct decoding (`UnmarshalJSON` of `struct.go`)

Go's `json.Unmarshal` applies an object's members in input order to the
case-sensitively (preferred) matched struct fields; since each field's final
value depends only on the last member bound to its key, the model computes
every field independently from a last-wins lookup.  An absent key is treated
like JSON `null` exactly for those fields where Go's behavior on the two
coincides (it does for every `Node` field); fields whose seeded default makes
absent and `null` differ (`scale`, `strength`, `alphaCutoff`,
`metallicFactor`, `roughnessFactor`, `baseColorFactor`) use the explicit
`Option Json` lookup. -/

/-- Decode errors (Go's `encoding/json` error values, collapsed to their
presence). -/
inductive JErr where
  | typeMismatch
deriving DecidableEq

/-- Last-wins lookup of a key in a decoded JSON object. -/
def lookupLast (kvs : List (Str × Json)) (k : Str) : Option Json :=
  kvs.foldl (fun acc kv => if kv.1 = k then some kv.2 else acc) none

/-- Lookup returning the raw member value, `none` when the key is absent. -/
def getOpt (kvs : List (Str × Json)) (k : String) : Option Json :=
  lookupLast kvs k.data

/-- Lookup treating an absent key as JSON `null`. -/
def getKey (kvs : List (Str × Json)) (k : String) : Json :=
  (lookupLast kvs k.data).getD Json.null

/-- Decode a JSON value into a Go fixed-size `float64` array of length `len`
seeded with `dflt`: `null` is a no-op (the seed survives); an array fully
replaces the seed, extra JSON elements are discarded and missing trailing Go
elements are zeroed (Go array semantics); anything else is a type error. -/
def decQArrD (len : Nat) (dflt : List ℚ) : Json → Except JErr (List ℚ)
  | .null => .ok dflt
  | .arr xs => do
    let l ← xs.mapM (fun e => match e with
      | .num q => Except.ok q
      | _ => Except.error JErr.typeMismatch)
    .ok (l.take len ++ List.replicate (len - l.length) 0)
  | _ => .error .typeMismatch

/-- Decode into a Go `string` field holding `cur`. -/
def decStrD (cur : Str) : Json → Except JErr Str
  | .null => .ok cur
  | .str s => .ok s
  | _ => .error .typeMismatch

/-- Decode into a Go `bool` field holding `cur`. -/
def decBoolD (cur : Bool) : Json → Except JErr Bool
  | .null => .ok cur
  | .bool b => .ok b
  | _ => .error .typeMismatch

/-- Decode a JSON number into a Go `uint32` (integral, `0 ≤ n < 2^32`). -/
def decNum32 (j : Json) : Except JErr Nat :=
  match j with
  | .num q => if q.den = 1 ∧ 0 ≤ q.num ∧ q.num < 4294967296 then .ok q.num.toNat
    else .error .typeMismatch
  | _ => .error .typeMismatch

/-- Decode into a Go `uint32` field holding `cur` (`null` is a no-op). -/
def decNat32 (cur : Nat) : Json → Except JErr Nat
  | .null => .ok cur
  | j => decNum32 j

/-- Decode into a Go `*uint32` field: `null` sets the pointer to nil. -/
def decOptNat : Json → Except JErr (Option Nat)
  | .null => .ok none
  | j => (decNum32 j).map some

/-- Decode into a Go `*float64` field: `null` sets the pointer to nil. -/
def decOptRat : Json → Except JErr (Option ℚ)
  | .null => .ok none
  | .num q => .ok (some q)
  | _ => .error .typeMismatch

/-- Decode into a Go `[]uint32` field holding `cur` (`null` is a no-op; an
array fully replaces the slice). -/
def decNatListD (cur : List Nat) : Json → Except JErr (List Nat)
  | .null => .ok cur
  | .arr xs => xs.mapM decNum32
  | _ => .error .typeMismatch

/-- Decode into a Go `[]float64` field holding `cur`. -/
def decQListD (cur : List ℚ) : Json → Except JErr (List ℚ)
  | .null => .ok cur
  | .arr xs => xs.mapM (fun e => match e with
      | .num q => Except.ok q
      | _ => Except.error JErr.typeMismatch)
  | _ => .error .typeMismatch

/-- Decode into a Go `interface{}` field (`Extras`): any value succeeds,
`null` yields the nil interface. -/
def decExtras : Json → Except JErr (Option Json)
  | .null => .ok none
  | j => .ok (some j)

/-- Decode into an `Extensions` field at the node/material level: the envelope
must be an object, whose raw key/payload pairs are stored (the per-key typed
dispatch of `Extensions.UnmarshalJSON` is modelled separately below on raw
bytes). -/
def decExtensionsField (cur : List (Str × Json)) : Json → Except JErr (List (Str × Json))
  | .null => .ok cur
  | .obj kvs => .ok kvs
  | _ => .error .typeMismatch

/-- `Node.UnmarshalJSON`'s inner `json.Unmarshal` into the seeded `alias`
value: the temporary is seeded with `DefaultMatrix`, `DefaultRotation`,
`DefaultScale` and then overwritten by whatever members are present. -/
def nodeDecodeCore : Json → Except JErr NodeM
  | .null => .ok {}
  | .obj kvs => do
    let ext ← decExtensionsField [] (getKey kvs "extensions")
    let extras ← decExtras (getKey kvs "extras")
    let name ← decStrD [] (getKey kvs "name")
    let camera ← decOptNat (getKey kvs "camera")
    let children ← decNatListD [] (getKey kvs "children")
    let skin ← decOptNat (getKey kvs "skin")
    let matrix ← decQArrD 16 DefaultMatrix (getKey kvs "matrix")
    let mesh ← decOptNat (getKey kvs "mesh")
    let rotation ← decQArrD 4 DefaultRotation (getKey kvs "rotation")
    let scale ← decQArrD 3 DefaultScale (getKey kvs "scale")
    let translation ← decQArrD 3 DefaultTranslation (getKey kvs "translation")
    let weights ← decQListD [] (getKey kvs "weights")
    .ok { extensions := ext, extras := extras, name := name, camera := camera,
          children := children, skin := skin, matrix := matrix, mesh := mesh,
          rotation := rotation, scale := scale, translation := translation,
          weights := weights }
  | _ => .error .typeMismatch

/-- `Node.UnmarshalJSON` from `struct.go`: decode into a seeded temporary and
assign it to the receiver only when no error occurred. -/
def nodeUnmarshalJSON (recv : NodeM) (j : Json) : NodeM × Option JErr :=
  match nodeDecodeCore j with
  | .ok tmp => (tmp, none)
  | .error e => (recv, some e)

/-- The `TextureInfo` struct of `struct.go`. -/
structure TextureInfoM where
  extensions : List (Str × Json) := []
  extras : Option Json := none
  index : Nat := 0
  texCoord : Nat := 0

/-- Plain `json.Unmarshal` into a `TextureInfo` (it has no custom decoder). -/
def textureInfoDecodeCore : Json → Except JErr TextureInfoM
  | .null => .ok {}
  | .obj kvs => do
    let ext ← decExtensionsField [] (getKey kvs "extensions")
    let extras ← decExtras (getKey kvs "extras")
    let index ← decNat32 0 (getKey kvs "index")
    let texCoord ← decNat32 0 (getKey kvs "texCoord")
    .ok { extensions := ext, extras := extras, index := index, texCoord := texCoord }
  | _ => .error .typeMismatch

/-- Decode into a `*TextureInfo` field: `null` sets the pointer to nil. -/
def decOptTextureInfo : Json → Except JErr (Option TextureInfoM)
  | .null => .ok none
  | j => (textureInfoDecodeCore j).map some

/-- The `NormalTexture` struct of `struct.go` (zero value: `Scale` nil). -/
structure NormalTextureM where
  extensions : List (Str × Json) := []
  extras : Option Json := none
  index : Option Nat := none
  texCoord : Nat := 0
  scale : Option ℚ := none

/-- `NormalTexture.UnmarshalJSON`'s inner decode into the temporary seeded
with `Scale = Float64(1)`: an absent `scale` keeps the seeded 1, an explicit
`null` nils the pointer. -/
def normalTextureDecodeCore : Json → Except JErr NormalTextureM
  | .null => .ok { scale := some 1 }
  | .obj kvs => do
    let ext ← decExtensionsField [] (getKey kvs "extensions")
    let extras ← decExtras (getKey kvs "extras")
    let index ← decOptNat (getKey kvs "index")
    let texCoord ← decNat32 0 (getKey kvs "texCoord")
    let scale ← match getOpt kvs "scale" with
      | none => Except.ok (some 1)
      | some v => decOptRat v
    .ok { extensions := ext, extras := extras, index := index,
          texCoord := texCoord, scale := scale }
  | _ => .error .typeMismatch

/-- `NormalTexture.UnmarshalJSON` from `struct.go`. -/
def normalTextureUnmarshalJSON (recv : NormalTextureM) (j : Json) :
    NormalTextureM × Option JErr :=
  match normalTextureDecodeCore j with
  | .ok tmp => (tmp, none)
  | .error e => (recv, some e)

/-- The `OcclusionTexture` struct of `struct.go` (zero value: `Strength` nil). -/
structure OcclusionTextureM where
  extensions : List (Str × Json) := []
  extras : Option Json := none
  index : Option Nat := none
  texCoord : Nat := 0
  strength : Option ℚ := none

/-- `OcclusionTexture.UnmarshalJSON`'s inner decode into the temporary seeded
with `Strength = Float64(1)`. -/
def occlusionTextureDecodeCore : Json → Except JErr OcclusionTextureM
  | .null => .ok { strength := some 1 }
  | .obj kvs => do
    let ext ← decExtensionsField [] (getKey kvs "extensions")
    let extras ← decExtras (getKey kvs "extras")
    let index ← decOptNat (getKey kvs "index")
    let texCoord ← decNat32 0 (getKey kvs "texCoord")
    let strength ← match getOpt kvs "strength" with
      | none => Except.ok (some 1)
      | some v => decOptRat v
    .ok { extensions := ext, extras := extras, index := index,
          texCoord := texCoord, strength := strength }
  | _ => .error .typeMismatch

/-- `OcclusionTexture.UnmarshalJSON` from `struct.go`. -/
def occlusionTextureUnmarshalJSON (recv : OcclusionTextureM) (j : Json) :
    OcclusionTextureM × Option JErr :=
  match occlusionTextureDecodeCore j with
  | .ok tmp => (tmp, none)
  | .error e => (recv, some e)

/-- `RGBA.UnmarshalJSON` from `struct.go`, as the decode of the value: the
temporary `[4]float64` is seeded `{1,1,1,1}`; `null` is a no-op keeping the
seed; an array replaces it with Go array semantics. -/
def rgbaDecodeCore : Json → Except JErr (List ℚ) :=
  decQArrD 4 [1, 1, 1, 1]

/-- The `PBRMetallicRoughness` struct of `struct.go` (zero value). -/
structure PBRMetallicRoughnessM where
  extensions : List (Str × Json) := []
  extras : Option Json := none
  baseColorFactor : Option (List ℚ) := none
  baseColorTexture : Option TextureInfoM := none
  metallicFactor : Option ℚ := none
  roughnessFactor : Option ℚ := none
  metallicRoughnessTexture : Option TextureInfoM := none

/-- `PBRMetallicRoughness.UnmarshalJSON`'s inner decode into the temporary
seeded with `BaseColorFactor = NewRGBA()`, `MetallicFactor = Float64(1)`,
`RoughnessFactor = Float64(1)`. -/
def pbrDecodeCore : Json → Except JErr PBRMetallicRoughnessM
  | .null => .ok { baseColorFactor := some [1, 1, 1, 1],
                   metallicFactor := some 1, roughnessFactor := some 1 }
  | .obj kvs => do
    let ext ← decExtensionsField [] (getKey kvs "extensions")
    let extras ← decExtras (getKey kvs "extras")
    let bcf ← match getOpt kvs "baseColorFactor" with
      | none => Except.ok (some [(1 : ℚ), 1, 1, 1])
      | some .null => Except.ok none
      | some v => (rgbaDecodeCore v).map some
    let bct ← match getOpt kvs "baseColorTexture" with
      | none => Except.ok none
      | some v => decOptTextureInfo v
    let mf ← match getOpt kvs "metallicFactor" with
      | none => Except.ok (some (1 : ℚ))
      | some v => decOptRat v
    let rf ← match getOpt kvs "roughnessFactor" with
      | none => Except.ok (some (1 : ℚ))
      | some v => decOptRat v
    let mrt ← match getOpt kvs "metallicRoughnessTexture" with
      | none => Except.ok none
      | some v => decOptTextureInfo v
    .ok { extensions := ext, extras := extras, baseColorFactor := bcf,
          baseColorTexture := bct, metallicFactor := mf, roughnessFactor := rf,
          metallicRoughnessTexture := mrt }
  | _ => .error .typeMismatch

/-- `PBRMetallicRoughness.UnmarshalJSON` from `struct.go`. -/
def pbrUnmarshalJSON (recv : PBRMetallicRoughnessM) (j : Json) :
    PBRMetallicRoughnessM × Option JErr :=
  match pbrDecodeCore j with
  | .ok tmp => (tmp, none)
  | .error e => (recv, some e)

/-- The `Material` struct of `struct.go`.  `alphaMode`'s concrete Go type is
defined outside `src/`; its JSON value is carried through opaquely. -/
structure MaterialM where
  extensions : List (Str × Json) := []
  extras : Option Json := none
  name : Str := []
  pbrMetallicRoughness : Option PBRMetallicRoughnessM := none
  normalTexture : Option NormalTextureM := none
  occlusionTexture : Option OcclusionTextureM := none
  emissiveTexture : Option TextureInfoM := none
  emissiveFactor : List ℚ := [0, 0, 0]
  alphaMode : Json := Json.null
  alphaCutoff : Option ℚ := none
  doubleSided : Bool := false

/-- `Material.UnmarshalJSON`'s inner decode into the temporary seeded with
`AlphaCutoff = Float64(0.5)`. -/
def materialDecodeCore : Json → Except JErr MaterialM
  | .null => .ok { alphaCutoff := some (1 / 2) }
  | .obj kvs => do
    let ext ← decExtensionsField [] (getKey kvs "extensions")
    let extras ← decExtras (getKey kvs "extras")
    let name ← decStrD [] (getKey kvs "name")
    let pbr ← match getOpt kvs "pbrMetallicRoughness" with
      | none => Except.ok none
      | some .null => Except.ok none
      | some v => (pbrDecodeCore v).map some
    let nt ← match getOpt kvs "normalTexture" with
      | none => Except.ok none
      | some .null => Except.ok none
      | some v => (normalTextureDecodeCore v).map some
    let ot ← match getOpt kvs "occlusionTexture" with
      | none => Except.ok none
      | some .null => Except.ok none
      | some v => (occlusionTextureDecodeCore v).map some
    let et ← match getOpt kvs "emissiveTexture" with
      | none => Except.ok none
      | some v => decOptTextureInfo v
    let ef ← decQArrD 3 [0, 0, 0] (getKey kvs "emissiveFactor")
    let am := getKey kvs "alphaMode"
    let ac ← match getOpt kvs "alphaCutoff" with
      | none => Except.ok (some ((1 : ℚ) / 2))
      | some v => decOptRat v
    let ds ← decBoolD false (getKey kvs "doubleSided")
    .ok { extensions := ext, extras := extras, name := name,
          pbrMetallicRoughness := pbr, normalTexture := nt,
          occlusionTexture := ot, emissiveTexture := et, emissiveFactor := ef,
          alphaMode := am, alphaCutoff := ac, doubleSided := ds }
  | _ => .error .typeMismatch

/-- `Material.UnmarshalJSON` from `struct.go`. -/
def materialUnmarshalJSON (recv : MaterialM) (j : Json) :
    MaterialM × Option JErr :=
  match materialDecodeCore j with
  | .ok tmp => (tmp, none)
  | .error e => (recv, some e)

/-! ### Buffers and the decoder (`decoder.go`) -/

/-- Errors of the decode pipeline, by kind (Go `errors.New` values). -/
inductive DErr where
  | quotaBufferCount
  | quotaMemory
  | invalidGLBJSONHeader
  | invalidGLBBINHeader
  | zeroByteLength
  | noURI
  | invalidURI
  | base64Error
  | ioEOF
  | cbError
  | jsonError
deriving DecidableEq

/-- The 6-bit value of a standard base64 alphabet character. -/
def b64Val (c : Char) : Option Nat :=
  if 65 ≤ c.toNat ∧ c.toNat ≤ 90 then some (c.toNat - 65)
  else if 97 ≤ c.toNat ∧ c.toNat ≤ 122 then some (c.toNat - 97 + 26)
  else if 48 ≤ c.toNat ∧ c.toNat ≤ 57 then some (c.toNat - 48 + 52)
  else if c = '+' then some 62
  else if c = '/' then some 63
  else none

/-- Decode base64 in blocks of four characters, padding (`=`) allowed only at
the very end, as Go's `base64.StdEncoding.DecodeString` accepts (Go's
non-strict mode ignores nonzero trailing bits). -/
def base64DecodeBlocks : List Char → Option (List Nat)
  | [] => some []
  | c1 :: c2 :: c3 :: c4 :: rest =>
    match b64Val c1, b64Val c2 with
    | some v1, some v2 =>
      if c3 = '=' then
        if c4 = '=' ∧ rest = [] then some [v1 * 4 + v2 / 16]
        else none
      else match b64Val c3 with
        | some v3 =>
          if c4 = '=' then
            if rest = [] then some [v1 * 4 + v2 / 16, (v2 % 16) * 16 + v3 / 4]
            else none
          else match b64Val c4 with
            | some v4 =>
              (base64DecodeBlocks rest).map
                (fun l => (v1 * 4 + v2 / 16) :: ((v2 % 16) * 16 + v3 / 4) :: ((v3 % 4) * 64 + v4) :: l)
            | none => none
        | none => none
    | _, _ => none
  | _ => none

/-- Go `base64.StdEncoding.DecodeString`: newlines are skipped, then the
input must be full 4-character blocks. -/
def base64Decode (s : Str) : Option (List Nat) :=
  base64DecodeBlocks (s.filter (fun c => c ≠ Char.ofNat 10 ∧ c ≠ Char.ofNat 13))

/-- The `Buffer` struct of `struct.go` (`Data` has tag `json:"-"`, so JSON
decoding never writes it; extension/extras members are not modelled as no
claim touches them on buffers). -/
structure BufferM where
  name : Str := []
  uri : Str := []
  byteLength : Nat := 0
  data : List Nat := []
deriving DecidableEq

/-- `Buffer.IsEmbeddedResource` from `struct.go`. -/
def bufferIsEmbedded (b : BufferM) : Bool :=
  startsWithStr mimetypeApplicationOctet b.uri

/-- `Buffer.marshalData` from `struct.go`: strip the data-URI marker plus the
comma, base64-decode the remainder; on a decode error return `(nil, err)`;
when the decoded result is empty return `(nil, err)` where `err` is the nil
error of the successful decode. -/
def bufferMarshalData (b : BufferM) : List Nat × Option DErr :=
  if ¬ bufferIsEmbedded b then ([], none)
  else
    match base64Decode (b.uri.drop (mimetypeApplicationOctet.length + 1)) with
    | some sl => if sl.isEmpty then ([], none) else (sl, none)
    | none => ([], some .base64Error)

/-- `validateBufferURI` from `decoder.go`: reject the empty URI, any URI
containing the substring `..`, and any URI starting with `/` or `\`. -/
def validateBufferURI (uri : Str) : Option DErr :=
  if uri = [] ∨ hasSub ('.' :: ['.']) uri ∨ startsWithStr ['/'] uri ∨ startsWithStr ['\\'] uri
  then some .invalidURI else none

/-- The `ReadQuotas` struct of `decoder.go`. -/
structure ReadQuotasM where
  maxBufferCount : Nat
  maxMemoryAllocation : Nat
deriving DecidableEq

/-- The quotas installed by `NewDecoder`: 8 buffers, 32 MiB. -/
def defaultQuotas : ReadQuotasM :=
  { maxBufferCount := 8, maxMemoryAllocation := 32 * 1024 * 1024 }

/-- `Decoder.validateBuffer` from `decoder.go`. -/
def validateBuffer (q : ReadQuotasM) (b : BufferM) : Option DErr :=
  if b.byteLength = 0 then some .zeroByteLength
  else if b.byteLength > q.maxMemoryAllocation then some .quotaMemory
  else none

/-- An `io.Reader` as the sequence of byte chunks its successive `Read` calls
deliver (the `io.Reader` contract allows each call to return fewer bytes than
the capacity of the destination slice). -/
abbrev ByteStream := List (List Nat)

/-- One `Read(p)` call with `len(p) = cap`: delivers at most `cap` bytes from
the front chunk; at end of stream it returns `(0, io.EOF)`. -/
def readOnce (s : ByteStream) (cap : Nat) : List Nat × ByteStream × Option DErr :=
  match s with
  | [] => ([], [], some .ioEOF)
  | ch :: rest =>
    (ch.take cap, if (ch.drop cap).isEmpty then rest else ch.drop cap :: rest, none)

/-- `io.ReadFull` semantics (used by `binary.Read` for chunk headers): gather
exactly `n` bytes across as many `Read` calls as needed, or fail at EOF. -/
def readFullAux : ByteStream → Nat → List Nat × ByteStream × Option DErr
  | s, 0 => ([], s, none)
  | [], _ => ([], [], some .ioEOF)
  | ch :: rest, n =>
    if n ≤ ch.length then
      (ch.take n, if (ch.drop n).isEmpty then rest else ch.drop n :: rest, none)
    else
      match readFullAux rest (n - ch.length) with
      | (bs, s2, e) => (ch ++ bs, s2, e)

/-- A little-endian `u32` from four bytes. -/
def leU32 (b0 b1 b2 b3 : Nat) : Nat :=
  b0 % 256 + b1 % 256 * 256 + b2 % 256 * 65536 + b3 % 256 * 16777216

/-- `Decoder.chunkHeader` from `decoder.go`: `binary.Read` of the 8-byte
little-endian chunk header `(length, type)`. -/
def chunkHeaderRead (s : ByteStream) : Option (Nat × Nat) × ByteStream × Option DErr :=
  match readFullAux s 8 with
  | (bs, s2, none) =>
    match bs with
    | [a, b, c, d, e, f, g, h] => (some (leU32 a b c d, leU32 e f g h), s2, none)
    | _ => (none, s2, some .ioEOF)
  | (_, s2, some e) => (none, s2, some e)

/-- The result of the `ReadResourceCallback`: an optional readable stream and
an optional error (`(nil, nil)` means "skip loading this buffer"). -/
abbrev CbResult := Option ByteStream × Option DErr

/-- The external resource-loading callback. -/
abbrev Cb := Str → CbResult

/-- `Decoder.decodeBuffer` from `decoder.go`.  The third component records
whether the resource callback was invoked.  Note the single `r.Read` call into
the freshly allocated `buffer.Data`: bytes the stream does not deliver in that
one call remain zero. -/
def decodeBufferM (q : ReadQuotasM) (cb : Cb) (b : BufferM) :
    BufferM × Option DErr × Bool :=
  match validateBuffer q b with
  | some e => (b, some e, false)
  | none =>
    if b.uri = [] then (b, some .noURI, false)
    else if bufferIsEmbedded b then
      match bufferMarshalData b with
      | (d, e) => ({ b with data := d }, e, false)
    else
      match validateBufferURI b.uri with
      | some e => (b, some e, false)
      | none =>
        match cb b.uri with
        | (some r, none) =>
          match readOnce r b.byteLength with
          | (bytes, _, e) =>
            ({ b with data := bytes ++ List.replicate (b.byteLength - bytes.length) 0 }, e, true)
        | (some _, some e) => (b, some e, true)
        | (none, some e) => (b, some e, true)
        | (none, none) => (b, none, true)

/-- `Decoder.decodeBinaryBuffer` from `decoder.go`: read the next chunk
header from the container stream, require the binary chunk type and a chunk
length of at least `byteLength`, then issue one `Read` into the freshly
allocated `Data`. -/
def decodeBinaryBufferM (q : ReadQuotasM) (s : ByteStream) (b : BufferM) :
    BufferM × ByteStream × Option DErr :=
  match validateBuffer q b with
  | some e => (b, s, some e)
  | none =>
    match chunkHeaderRead s with
    | (some (len, ty), s2, none) =>
      if ty ≠ glbChunkBIN ∨ len < b.byteLength then (b, s2, some .invalidGLBBINHeader)
      else
        match readOnce s2 b.byteLength with
        | (bytes, s3, e) =>
          ({ b with data := bytes ++ List.replicate (b.byteLength - bytes.length) 0 }, s3, e)
    | (_, s2, some e) => (b, s2, some e)
    | (none, s2, none) => (b, s2, some .ioEOF)

/-- The `glbHeader` struct of `decoder.go` (12-byte header followed by the
8-byte first chunk header; `unsafe.Sizeof` of the struct value is 20). -/
structure GlbHeaderM where
  magic : Nat
  version : Nat
  length : Nat
  jsonLength : Nat
  jsonType : Nat
deriving DecidableEq

/-- `Decoder.validateGLBHeader` from `decoder.go`: the total-length quota
check, then `chunkType` must be the JSON chunk constant and
`JSONHeader.Length + uint32(unsafe.Sizeof(header))` — computed in wrapping
`uint32` arithmetic — must not exceed `Length`.  In this function `header`
is the parameter of pointer type `*glbHeader`, so `unsafe.Sizeof(header)` is
the size of the pointer — 8 on a 64-bit platform, which the model fixes —
and not the 20-byte struct size that the same expression yields on the
struct value inside `readGLBHeader`. -/
def validateGLBHeader (q : ReadQuotasM) (h : GlbHeaderM) : Option DErr :=
  if h.length > q.maxMemoryAllocation then some .quotaMemory
  else if h.jsonType ≠ glbChunkJSON ∨ (h.jsonLength + 8) % 4294967296 > h.length
  then some .invalidGLBJSONHeader
  else none

/-- The `Document` struct of `struct.go`, restricted to its buffers sequence
(no claim touches the other entity sequences). -/
structure DocumentM where
  buffers : List BufferM := []
deriving DecidableEq

/-- Plain `json.Unmarshal` of one element of the `buffers` array: `Data`
carries tag `json:"-"` and is never populated by JSON decoding. -/
def bufferFromJson : Json → Except JErr BufferM
  | .null => .ok {}
  | .obj kvs => do
    let name ← decStrD [] (getKey kvs "name")
    let uri ← decStrD [] (getKey kvs "uri")
    let bl ← decNat32 0 (getKey kvs "byteLength")
    .ok { name := name, uri := uri, byteLength := bl, data := [] }
  | _ => .error .typeMismatch

/-- Structured JSON decode of the document root (its `buffers` member). -/
def documentFromJson : Json → Except JErr DocumentM
  | .null => .ok {}
  | .obj kvs =>
    match getKey kvs "buffers" with
    | .null => .ok { buffers := [] }
    | .arr xs => (xs.mapM bufferFromJson).map (fun bufs => { buffers := bufs })
    | _ => .error .typeMismatch
  | _ => .error .typeMismatch

/-- `Decoder.decodeDocument` from `decoder.go`, after the framing decision:
run the JSON decode of the document, then (still inside `decodeDocument`)
fail when more buffers are declared than `MaxBufferCount` allows.  No buffer
payload has been touched at this point. -/
def decodeDocumentM (q : ReadQuotasM) (j : Json) : DocumentM × Option DErr :=
  match documentFromJson j with
  | .error _ => ({}, some .jsonError)
  | .ok doc =>
    (doc, if doc.buffers.length > q.maxBufferCount then some .quotaBufferCount else none)

/-- The external-buffer resolution loop of `Decoder.Decode` (document order,
stop at the first error); also counts resource-callback invocations. -/
def resolveBuffers (q : ReadQuotasM) (cb : Cb) : List BufferM → List BufferM × Option DErr × Nat
  | [] => ([], none, 0)
  | b :: rest =>
    match decodeBufferM q cb b with
    | (b2, some e, inv) => (b2 :: rest, some e, if inv then 1 else 0)
    | (b2, none, inv) =>
      match resolveBuffers q cb rest with
      | (rest2, e, n) => (b2 :: rest2, e, (if inv then 1 else 0) + n)

/-- `Decoder.Decode` from `decoder.go`: document decode (with the buffer-count
quota enforced inside `decodeDocument` and re-checked afterwards), then —
only when that succeeded — the distinguished first buffer is filled from the
binary chunk when the container is binary, and the remaining buffers are
resolved in document order.  `isBinary` abstracts the header peek (the peeked
header itself is validated by `validateGLBHeader`); the result also counts
resource-callback invocations. -/
def decodeM (q : ReadQuotasM) (isBinary : Bool) (j : Json) (s : ByteStream) (cb : Cb) :
    DocumentM × Option DErr × Nat :=
  match decodeDocumentM q j with
  | (doc, some e) => (doc, some e, 0)
  | (doc, none) =>
    if doc.buffers.length > q.maxBufferCount then (doc, some .quotaBufferCount, 0)
    else
      match doc.buffers with
      | [] => (doc, none, 0)
      | b0 :: rest =>
        if isBinary then
          match decodeBinaryBufferM q s b0 with
          | (b02, _, some e) => ({ buffers := b02 :: rest }, some e, 0)
          | (b02, _, none) =>
            match resolveBuffers q cb rest with
            | (rest2, e, n) => ({ buffers := b02 :: rest2 }, e, n)
        else
          match resolveBuffers q cb (b0 :: rest) with
          | (bufs, e, n) => ({ buffers := bufs }, e, n)

/-! ### The extensions envelope (`Extensions.UnmarshalJSON` of `struct.go`)

`Extensions.UnmarshalJSON` first decodes its raw bytes generically into
`map[string]json.RawMessage`; the model scans the bytes into key / raw-payload
pairs, preserving each payload's exact bytes the way `json.RawMessage` does. -/

/-- JSON whitespace. -/
def isWs (c : Char) : Bool :=
  c = ' ' || c = Char.ofNat 9 || c = Char.ofNat 10 || c = Char.ofNat 13

/-- Skip JSON whitespace. -/
def dropWs (s : Str) : Str := s.dropWhile isWs

/-- Scan the raw span of a JSON string from just after its opening quote up to
and including its closing quote (escape pairs skipped verbatim). -/
def strSpanAux : Nat → Str → Option (Str × Str)
  | 0, _ => none
  | _ + 1, [] => none
  | fuel + 1, c :: rest =>
    if c = '"' then some ([c], rest)
    else if c = '\\' then
      match rest with
      | [] => none
      | d :: r2 => (strSpanAux fuel r2).map (fun p => (c :: d :: p.1, p.2))
    else (strSpanAux fuel rest).map (fun p => (c :: p.1, p.2))

/-- The value of one hexadecimal digit character. -/
def hexVal (c : Char) : Option Nat :=
  if 48 ≤ c.toNat ∧ c.toNat ≤ 57 then some (c.toNat - 48)
  else if 97 ≤ c.toNat ∧ c.toNat ≤ 102 then some (c.toNat - 97 + 10)
  else if 65 ≤ c.toNat ∧ c.toNat ≤ 70 then some (c.toNat - 65 + 10)
  else none

/-- Decode the content of a JSON string key (escapes processed) from just
after its opening quote up to its closing quote. -/
def keyContentAux : Nat → Str → Option (Str × Str)
  | 0, _ => none
  | _ + 1, [] => none
  | fuel + 1, c :: rest =>
    if c = '"' then some ([], rest)
    else if c = '\\' then
      match rest with
      | [] => none
      | d :: r2 =>
        if d = 'u' then
          match r2 with
          | h1 :: h2 :: h3 :: h4 :: r3 =>
            match hexVal h1, hexVal h2, hexVal h3, hexVal h4 with
            | some a, some b, some c2, some d2 =>
              (keyContentAux fuel r3).map
                (fun p => (Char.ofNat (((a * 16 + b) * 16 + c2) * 16 + d2) :: p.1, p.2))
            | _, _, _, _ => none
          | _ => none
        else
          let mapped : Option Char :=
            if d = 'n' then some (Char.ofNat 10)
            else if d = 't' then some (Char.ofNat 9)
            else if d = 'r' then some (Char.ofNat 13)
            else if d = 'b' then some (Char.ofNat 8)
            else if d = 'f' then some (Char.ofNat 12)
            else if d = '"' ∨ d = '\\' ∨ d = '/' then some d
            else none
          match mapped with
          | some ch => (keyContentAux fuel r2).map (fun p => (ch :: p.1, p.2))
          | none => none
    else (keyContentAux fuel rest).map (fun p => (c :: p.1, p.2))

/-- Scan the raw span of a JSON object or array body (the opening bracket
already consumed, `depth` brackets currently open), up to and including the
bracket closing the outermost one; strings are skipped as opaque spans. -/
def containerSpanAux : Nat → Str → Nat → Option (Str × Str)
  | 0, _, _ => none
  | _ + 1, [], _ => none
  | fuel + 1, c :: rest, depth =>
    if c = '"' then
      match strSpanAux fuel rest with
      | some (sp, r2) => (containerSpanAux fuel r2 depth).map (fun p => (c :: sp ++ p.1, p.2))
      | none => none
    else if c = braceOpen ∨ c = '[' then
      (containerSpanAux fuel rest (depth + 1)).map (fun p => (c :: p.1, p.2))
    else if c = braceClose ∨ c = ']' then
      if depth = 1 then some ([c], rest)
      else (containerSpanAux fuel rest (depth - 1)).map (fun p => (c :: p.1, p.2))
    else (containerSpanAux fuel rest depth).map (fun p => (c :: p.1, p.2))

/-- Scan the raw span of one JSON value, exactly the bytes `json.RawMessage`
would capture for it. -/
def valueSpan (fuel : Nat) (s : Str) : Option (Str × Str) :=
  match fuel, s with
  | 0, _ => none
  | _, [] => none
  | fuel + 1, c :: rest =>
    if c = '"' then (strSpanAux fuel rest).map (fun p => (c :: p.1, p.2))
    else if c = braceOpen ∨ c = '[' then
      (containerSpanAux fuel rest 1).map (fun p => (c :: p.1, p.2))
    else
      let lit := (c :: rest).takeWhile
        (fun ch => ¬ isWs ch ∧ ch ≠ ',' ∧ ch ≠ braceClose ∧ ch ≠ ']')
      if lit.isEmpty then none else some (lit, (c :: rest).drop lit.length)

/-- Scan the members of a JSON object (the opening brace already consumed)
into key / raw-value-span pairs. -/
def envMembersAux : Nat → Str → Option (List (Str × Str) × Str)
  | 0, _ => none
  | fuel + 1, s =>
    match dropWs s with
    | [] => none
    | c :: rest =>
      if c = braceClose then some ([], rest)
      else if c = '"' then
        match keyContentAux fuel rest with
        | none => none
        | some (k, r2) =>
          match dropWs r2 with
          | ':' :: r3 =>
            match valueSpan fuel (dropWs r3) with
            | none => none
            | some (v, r4) =>
              match dropWs r4 with
              | ',' :: r5 => (envMembersAux fuel r5).map (fun p => ((k, v) :: p.1, p.2))
              | c2 :: r5 => if c2 = braceClose then some ([(k, v)], r5) else none
              | [] => none
          | _ => none
      else none

/-- Generic decode of the extensions envelope into key / raw-payload pairs
(`json.Unmarshal` into `map[string]json.RawMessage`); `null` decodes to no
entries. -/
def parseEnvelope (s : Str) : Option (List (Str × Str)) :=
  match dropWs s with
  | [] => none
  | c :: rest =>
    if c = braceOpen then
      match envMembersAux (s.length + 1) rest with
      | some (kvs, r2) => if (dropWs r2).isEmpty then some kvs else none
      | none => none
    else if ('n' :: 'u' :: 'l' :: ['l']) = c :: rest.take 3 ∧ (dropWs (rest.drop 3)).isEmpty
    then some []
    else none

/-- An extensions-map entry: a typed instance produced by a registered
factory's decoder, or the raw payload bytes kept verbatim. -/
inductive ExtVal (α : Type) where
  | typed (a : α)
  | raw (bytes : Str)
deriving DecidableEq

/-- The per-key dispatch of `Extensions.UnmarshalJSON`: when the registry has
a factory for the key, attempt its structured decode and fall back to the raw
payload on failure; with no factory, keep the raw payload. -/
def extDispatch {α : Type} (reg : Str → Option (Str → Option α)) (kv : Str × Str) :
    ExtVal α :=
  match reg kv.1 with
  | some dec =>
    match dec kv.2 with
    | some t => .typed t
    | none => .raw kv.2
  | none => .raw kv.2

/-- Insert-or-overwrite in an association list (Go map assignment). -/
def upsert {β : Type} : List (Str × β) → Str → β → List (Str × β)
  | [], k, v => [(k, v)]
  | kv :: rest, k, v => if kv.1 = k then (k, v) :: rest else kv :: upsert rest k v

/-- `Extensions.UnmarshalJSON` from `struct.go`: generically parse the raw
bytes into key / raw-payload pairs; on success store, for every key, either
the typed decode or the raw payload (never failing because a payload's
structured decode failed); only an envelope-level parse failure is reported. -/
def extensionsUnmarshalJSON {α : Type} (reg : Str → Option (Str → Option α))
    (recv : List (Str × ExtVal α)) (data : Str) :
    List (Str × ExtVal α) × Option JErr :=
  match parseEnvelope data with
  | none => (recv, some .typeMismatch)
  | some kvs => (kvs.foldl (fun m kv => upsert m kv.1 (extDispatch reg kv)) recv, none)

/-! ### Concrete instances used by the theorems below -/

/-- A node whose `extras` payload textually contains the rotation default
pattern while its own transform fields all sit at their spec defaults. -/
def advNode : NodeM :=
  { extras := some (Json.obj
      [(("rotation").data, Json.arr [Json.num 0, Json.num 0, Json.num 0, Json.num 1])]) }

/-- What `Node.MarshalJSON` actually produces for `advNode`: the textual
removal hits the copy of the pattern inside `extras` and leaves the real
`rotation` property in place. -/
def advNodeGoOut : Str :=
  ("\x7b\"extras\":\x7b\x7d,\"rotation\":[0,0,0,1]\x7d").data

/-- What structured conditional field emission produces for `advNode`. -/
def advNodeStructuredOut : Str :=
  ("\x7b\"extras\":\x7b\"rotation\":[0,0,0,1]\x7d\x7d").data

/-- A callback stream that delivers its eight bytes across two `Read` calls. -/
def cbTwo : Cb := fun _ => (some [[1, 2, 3, 4], [5, 6, 7, 8]], none)

/-- A callback that opts out of loading every buffer. -/
def cbNone : Cb := fun _ => (none, none)

/-- An external buffer of eight declared bytes. -/
def bufC2 : BufferM := { uri := ("a.bin").data, byteLength := 8 }

/-- The embedded buffer of the spec's base64 example (`QUJD` = `A,B,C`). -/
def bufB64 : BufferM :=
  { uri := ("data:application/octet-stream;base64,QUJD").data, byteLength := 3 }

/-- An embedded buffer whose base64 payload is invalid. -/
def bufBad : BufferM :=
  { uri := ("data:application/octet-stream;base64,%%%%").data, byteLength := 3 }

/-- An embedded buffer whose base64 payload is empty. -/
def bufEmptyPayload : BufferM :=
  { uri := ("data:application/octet-stream;base64,").data, byteLength := 1 }

/-- A GLB header with `chunkLength + 20` exceeding `totalLength` while the
code's `chunkLength + 8` does not (`16 + 8 = 24 ≤ 24 < 36 = 16 + 20`). -/
def hdrGap : GlbHeaderM :=
  { magic := glbHeaderMagic, version := 2, length := 24,
    jsonLength := 16, jsonType := glbChunkJSON }

/-- A GLB header whose `chunkLength + 8` wraps around `2^32` to `0`. -/
def hdrWrap : GlbHeaderM :=
  { magic := glbHeaderMagic, version := 2, length := 100,
    jsonLength := 4294967288, jsonType := glbChunkJSON }

/-- One of nine identical declared buffers. -/
def bufNine : BufferM := { uri := ("b.bin").data, byteLength := 4 }

/-- A document JSON declaring nine buffers. -/
def nineBufJson : Json :=
  Json.obj [(("buffers").data,
    Json.arr (List.replicate 9 (Json.obj
      [(("uri").data, Json.str ("b.bin").data),
       (("byteLength").data, Json.num 4)])))]

/-- The nine-buffer document those bytes decode to. -/
def doc9 : DocumentM := { buffers := List.replicate 9 bufNine }

/-- The path-traversal buffer of the spec's test. -/
def bufDotDot : BufferM := { uri := ("../secret.bin").data, byteLength := 4 }

/-- The extensions envelope `{"XYZ_foo":{"a":1}}` of the spec's test. -/
def envXYZ : Str := ("\x7b\"XYZ_foo\":\x7b\"a\":1\x7d\x7d").data

/-- The key of that envelope. -/
def envKey : Str := ("XYZ_foo").data

/-- The raw payload bytes of that envelope. -/
def envPayload : Str := ("\x7b\"a\":1\x7d").data

/-- A registry with no registered extension. -/
def noReg : Str → Option (Str → Option Unit) := fun _ => none

/-! ## Theorems -/

/-- Inversion of a successful `Except` bind. -/
theorem except_bind_ok {α β : Type} {e : Except JErr α} {f : α → Except JErr β} {b : β}
    (h : e >>= f = .ok b) : ∃ a, e = .ok a ∧ f a = .ok b := by
  cases e with
  | error err => exact absurd h (by simp [Bind.bind, Except.bind])
  | ok v => exact ⟨v, rfl, by simpa [Bind.bind, Except.bind] using h⟩

/-- A buffer decoded from JSON always carries empty `Data` (`json:"-"`). -/
theorem bufferFromJson_data (j : Json) (b : BufferM) (h : bufferFromJson j = .ok b) :
    b.data = [] := by
  cases j with
  | null => injection h with h1; rw [← h1]
  | obj kvs =>
    unfold bufferFromJson at h
    obtain ⟨v0, h0, h⟩ := except_bind_ok h
    obtain ⟨v1, h1, h⟩ := except_bind_ok h
    obtain ⟨v2, h2, h⟩ := except_bind_ok h
    injection h with h3
    rw [← h3]
  | bool x => simp [bufferFromJson] at h
  | num x => simp [bufferFromJson] at h
  | str x => simp [bufferFromJson] at h
  | arr x => simp [bufferFromJson] at h

/-- All buffers decoded from a `buffers` array carry empty `Data`. -/
theorem mapM_bufferFromJson_data (xs : List Json) (bs : List BufferM)
    (h : xs.mapM bufferFromJson = .ok bs) : ∀ b ∈ bs, b.data = [] := by
  induction xs generalizing bs with
  | nil =>
    intro b hb
    simp only [List.mapM_nil] at h
    injection h with h1
    rw [← h1] at hb
    cases hb
  | cons x rest ih =>
    intro b hb
    rw [List.mapM_cons] at h
    obtain ⟨b1, h1, h⟩ := except_bind_ok h
    obtain ⟨bs1, h2, h⟩ := except_bind_ok h
    injection h with h3
    rw [← h3] at hb
    cases hb with
    | head => exact bufferFromJson_data x b h1
    | tail _ hb2 => exact ih bs1 h2 b hb2

/-- The JSON decode of the document never populates any buffer's `Data`. -/
theorem documentFromJson_data (j : Json) (doc : DocumentM)
    (h : documentFromJson j = .ok doc) : ∀ b ∈ doc.buffers, b.data = [] := by
  cases j with
  | null =>
    injection h with h1
    rw [← h1]
    intro b hb
    cases hb
  | obj kvs =>
    intro b hb
    cases hj : getKey kvs "buffers" with
    | null =>
      simp only [documentFromJson, hj] at h
      injection h with h1
      rw [← h1] at hb
      cases hb
    | arr xs =>
      simp only [documentFromJson, hj] at h
      cases hmm : xs.mapM bufferFromJson with
      | error e => rw [hmm] at h; cases h
      | ok bufs =>
        rw [hmm] at h
        simp only [Except.map] at h
        injection h with h1
        rw [← h1] at hb
        exact mapM_bufferFromJson_data xs bufs hmm b hb
    | bool x => simp only [documentFromJson, hj] at h; cases h
    | num x => simp only [documentFromJson, hj] at h; cases h
    | str x => simp only [documentFromJson, hj] at h; cases h
    | obj x => simp only [documentFromJson, hj] at h; cases h
  | bool x => simp [documentFromJson] at h
  | num x => simp [documentFromJson] at h
  | str x => simp [documentFromJson] at h
  | arr x => simp [documentFromJson] at h

/-- Inversion of a successful node decode: each transform field is exactly
the result of decoding its own member. -/
theorem nodeDecodeCore_obj_fields (kvs : List (Str × Json)) (n : NodeM)
    (h : nodeDecodeCore (Json.obj kvs) = .ok n) :
    decQArrD 16 DefaultMatrix (getKey kvs "matrix") = .ok n.matrix ∧
    decQArrD 4 DefaultRotation (getKey kvs "rotation") = .ok n.rotation ∧
    decQArrD 3 DefaultScale (getKey kvs "scale") = .ok n.scale ∧
    decQArrD 3 DefaultTranslation (getKey kvs "translation") = .ok n.translation := by
  unfold nodeDecodeCore at h
  obtain ⟨v0, h0, h⟩ := except_bind_ok h
  obtain ⟨v1, h1, h⟩ := except_bind_ok h
  obtain ⟨v2, h2, h⟩ := except_bind_ok h
  obtain ⟨v3, h3, h⟩ := except_bind_ok h
  obtain ⟨v4, h4, h⟩ := except_bind_ok h
  obtain ⟨v5, h5, h⟩ := except_bind_ok h
  obtain ⟨v6, h6, h⟩ := except_bind_ok h
  obtain ⟨v7, h7, h⟩ := except_bind_ok h
  obtain ⟨v8, h8, h⟩ := except_bind_ok h
  obtain ⟨v9, h9, h⟩ := except_bind_ok h
  obtain ⟨v10, h10, h⟩ := except_bind_ok h
  obtain ⟨v11, h11, h⟩ := except_bind_ok h
  injection h with h12
  subst h12
  exact ⟨h6, h8, h9, h10⟩

/-- C1.  The claim asserts that `Node.MarshalJSON`'s output always equals the
output of structured conditional field emission and that the textual removal
of default substrings never alters any other part of the output.  The code
violates this: for `advNode` — whose `extras` value itself serializes to text
containing `"rotation":[0,0,0,1]` — the post-serialization removal deletes
that copy inside `extras` (emptying it) and leaves the node's actual default
`rotation` property in the output, so the two encodings differ. -/
theorem c1_node_marshal_text_surgery_corrupts :
    nodeMarshalJSON advNode = advNodeGoOut ∧
    nodeMarshalStructured advNode = advNodeStructuredOut ∧
    advNode.rotation = DefaultRotation ∧
    nodeMarshalJSON advNode ≠ nodeMarshalStructured advNode := by
  refine ⟨by decide, by decide, by decide, by decide⟩

/-- C2.  The claim says a buffer resolved through the resource callback is
filled with exactly `byteLength` bytes of the stream or the decode errors.
The code issues a single `Read` call into the allocated slice; on a stream
that delivers its eight bytes across two reads, decoding reports success with
`Data = [1,2,3,4,0,0,0,0]` — half stream bytes, half padding zeros — instead
of the stream's leading eight bytes. -/
theorem c2_partial_read_reported_success :
    decodeBufferM defaultQuotas cbTwo bufC2 =
      ({ bufC2 with data := [1, 2, 3, 4, 0, 0, 0, 0] }, none, true) ∧
    (decodeBufferM defaultQuotas cbTwo bufC2).1.data ≠ [1, 2, 3, 4, 5, 6, 7, 8] := by
  refine ⟨by decide, by decide⟩

/-- C3.  Decoding the embedded base64 buffer `QUJD` yields bytes `A,B,C`, and
an invalid payload is an error, as the claim states; but for an *empty*
decoded result `Buffer.marshalData` executes `return nil, err` with the nil
error of the successful decode, so — contrary to the claim — `decodeBuffer`
succeeds with empty `Data` instead of failing. -/
theorem c3_embedded_base64 :
    decodeBufferM defaultQuotas cbNone bufB64 =
      ({ bufB64 with data := [65, 66, 67] }, none, false) ∧
    (decodeBufferM defaultQuotas cbNone bufBad).2.1 = some DErr.base64Error ∧
    decodeBufferM defaultQuotas cbNone bufEmptyPayload =
      ({ bufEmptyPayload with data := [] }, none, false) := by
  refine ⟨by decide, by decide, by decide⟩

/-- C4.  The claim (with the spec) requires a malformed-container failure
whenever `chunkLength + 20` — the 20-byte header size — exceeds
`totalLength`, as exact arithmetic over all `u32` values.  The code instead
adds `uint32(unsafe.Sizeof(header))` where `header` is the `*glbHeader`
pointer parameter — the pointer size 8, not the header size 20 — and does so
in wrapping `uint32` arithmetic: `hdrGap` (`chunkLength 16`,
`totalLength 24`) passes validation although `16 + 20 > 24`, and `hdrWrap`
(`chunkLength 2^32 - 8`) also passes because the `uint32` sum wraps to `0`. -/
theorem c4_header_size_bug :
    validateGLBHeader defaultQuotas hdrGap = none ∧
    hdrGap.jsonType = glbChunkJSON ∧
    hdrGap.jsonLength + 20 > hdrGap.length ∧
    validateGLBHeader defaultQuotas hdrWrap = none ∧
    hdrWrap.jsonType = glbChunkJSON ∧
    hdrWrap.jsonLength + 20 > hdrWrap.length := by
  refine ⟨by decide, by decide, by decide, by decide, by decide, by decide⟩

/-- C9.  For `Node`, `Material`, `NormalTexture`, `OcclusionTexture` and
`PBRMetallicRoughness`, when the inner `json.Unmarshal` into the seeded
temporary fails, `UnmarshalJSON` returns the error and leaves the receiver
completely unchanged — decoding is atomic per object. -/
theorem c9_unmarshal_atomic :
    (∀ (recv : NodeM) (j : Json) (e : JErr), nodeDecodeCore j = .error e →
      nodeUnmarshalJSON recv j = (recv, some e)) ∧
    (∀ (recv : MaterialM) (j : Json) (e : JErr), materialDecodeCore j = .error e →
      materialUnmarshalJSON recv j = (recv, some e)) ∧
    (∀ (recv : NormalTextureM) (j : Json) (e : JErr), normalTextureDecodeCore j = .error e →
      normalTextureUnmarshalJSON recv j = (recv, some e)) ∧
    (∀ (recv : OcclusionTextureM) (j : Json) (e : JErr), occlusionTextureDecodeCore j = .error e →
      occlusionTextureUnmarshalJSON recv j = (recv, some e)) ∧
    (∀ (recv : PBRMetallicRoughnessM) (j : Json) (e : JErr), pbrDecodeCore j = .error e →
      pbrUnmarshalJSON recv j = (recv, some e)) := by
  refine ⟨?_, ?_, ?_, ?_, ?_⟩ <;>
    · intro recv j e h
      first
        | (unfold nodeUnmarshalJSON; rw [h])
        | (unfold materialUnmarshalJSON; rw [h])
        | (unfold normalTextureUnmarshalJSON; rw [h])
        | (unfold occlusionTextureUnmarshalJSON; rw [h])
        | (unfold pbrUnmarshalJSON; rw [h])

/-- Witness for `c9_unmarshal_atomic`: a JSON number is not an object, so all
five inner decodes fail and all five receivers survive unchanged. -/
theorem c9_unmarshal_atomic_witness :
    nodeUnmarshalJSON {} (Json.num 3) = ({}, some JErr.typeMismatch) ∧
    materialUnmarshalJSON {} (Json.num 3) = ({}, some JErr.typeMismatch) ∧
    normalTextureUnmarshalJSON {} (Json.num 3) = ({}, some JErr.typeMismatch) ∧
    occlusionTextureUnmarshalJSON {} (Json.num 3) = ({}, some JErr.typeMismatch) ∧
    pbrUnmarshalJSON {} (Json.num 3) = ({}, some JErr.typeMismatch) :=
  ⟨c9_unmarshal_atomic.1 {} (Json.num 3) .typeMismatch rfl,
   c9_unmarshal_atomic.2.1 {} (Json.num 3) .typeMismatch rfl,
   c9_unmarshal_atomic.2.2.1 {} (Json.num 3) .typeMismatch rfl,
   c9_unmarshal_atomic.2.2.2.1 {} (Json.num 3) .typeMismatch rfl,
   c9_unmarshal_atomic.2.2.2.2 {} (Json.num 3) .typeMismatch rfl⟩

/-- C10.  `validateBufferURI` rejects a URI exactly when it is empty,
contains the two-character substring `..` anywhere (also when it is not a
parent-directory segment, as `my..file.bin` shows), or starts with `/` or
`\`; every other (necessarily non-empty) URI passes. -/
theorem c10_validate_uri_exact :
    (∀ uri : Str, validateBufferURI uri = some DErr.invalidURI ↔
      (uri = [] ∨ hasSub ('.' :: ['.']) uri = true ∨
        startsWithStr ['/'] uri = true ∨ startsWithStr ['\\'] uri = true)) ∧
    validateBufferURI (("my..file.bin").data) = some DErr.invalidURI := by
  constructor
  · intro uri
    unfold validateBufferURI
    split
    · simp_all
    · simp_all
  · decide

/-- C5 counterexample.  The claim states that encoding any node whose
rotation equals the spec default omits the `rotation` property.  For
`advNode` — rotation at the spec default, but `extras` serializing to text
containing the removal pattern — the textual removal consumes the copy inside
`extras` and the emitted JSON still contains the `rotation` property. -/
theorem c5_counterexample :
    advNode.rotation = DefaultRotation ∧
    nodeMarshalJSON advNode = advNodeGoOut ∧
    hasSub (("\"rotation\"").data) (nodeMarshalJSON advNode) = true := by
  refine ⟨by decide, by decide, by decide⟩

/-- C5 amended.  With the interference of other serialized content excluded
(a node carrying only transform data): decoding a node object lacking a
transform member yields that field's spec default; encoding a node each of
whose transform fields equals its spec default or (matrix, rotation, scale)
the all-zero sentinel omits all four properties, producing `{}`; and
re-decoding that output yields the spec defaults. -/
theorem c5_transform_defaults :
    (∀ (kvs : List (Str × Json)) (n : NodeM), nodeDecodeCore (Json.obj kvs) = .ok n →
      (lookupLast kvs (("matrix").data) = none → n.matrix = DefaultMatrix) ∧
      (lookupLast kvs (("rotation").data) = none → n.rotation = DefaultRotation) ∧
      (lookupLast kvs (("scale").data) = none → n.scale = DefaultScale) ∧
      (lookupLast kvs (("translation").data) = none → n.translation = DefaultTranslation)) ∧
    (∀ m r s : List ℚ, (m = DefaultMatrix ∨ m = emptyMatrix) →
      (r = DefaultRotation ∨ r = emptyRotation) → (s = DefaultScale ∨ s = emptyScale) →
      nodeMarshalJSON { matrix := m, rotation := r, scale := s } = [braceOpen, braceClose]) ∧
    nodeDecodeCore (Json.obj []) = .ok {} := by
  refine ⟨?_, ?_, rfl⟩
  · intro kvs n h
    obtain ⟨hm, hr, hs, ht⟩ := nodeDecodeCore_obj_fields kvs n h
    refine ⟨fun hk => ?_, fun hk => ?_, fun hk => ?_, fun hk => ?_⟩
    · rw [show getKey kvs "matrix" = Json.null from by unfold getKey; rw [hk]; rfl] at hm
      simp [decQArrD] at hm
      exact hm.symm
    · rw [show getKey kvs "rotation" = Json.null from by unfold getKey; rw [hk]; rfl] at hr
      simp [decQArrD] at hr
      exact hr.symm
    · rw [show getKey kvs "scale" = Json.null from by unfold getKey; rw [hk]; rfl] at hs
      simp [decQArrD] at hs
      exact hs.symm
    · rw [show getKey kvs "translation" = Json.null from by unfold getKey; rw [hk]; rfl] at ht
      simp [decQArrD] at ht
      exact ht.symm
  · intro m r s hm hr hs
    rcases hm with hm | hm <;> rcases hr with hr | hr <;> rcases hs with hs | hs <;>
      subst hm <;> subst hr <;> subst hs <;> decide

/-- Witness for `c5_transform_defaults`: the empty node object decodes to the
spec defaults, and the all-defaults node encodes to `{}`. -/
theorem c5_transform_defaults_witness :
    ({} : NodeM).matrix = DefaultMatrix ∧
    nodeMarshalJSON ({} : NodeM) = [braceOpen, braceClose] :=
  ⟨(c5_transform_defaults.1 [] {} rfl).1 rfl,
   c5_transform_defaults.2.1 DefaultMatrix DefaultRotation DefaultScale
     (Or.inl rfl) (Or.inl rfl) (Or.inl rfl)⟩

/-- C6.  When the decoded document declares more buffers than
`quotas.MaxBufferCount`, `Decode` stops with the quota-exceeded error raised
inside `decodeDocument`, the resource callback is never invoked, and every
buffer's `Data` is still empty (the count check precedes all payload work). -/
theorem c6_buffer_count_quota (q : ReadQuotasM) (isB : Bool) (j : Json)
    (s : ByteStream) (cb : Cb) (doc : DocumentM)
    (h : documentFromJson j = .ok doc) (hgt : doc.buffers.length > q.maxBufferCount) :
    decodeM q isB j s cb = (doc, some DErr.quotaBufferCount, 0) ∧
    ∀ b ∈ doc.buffers, b.data = [] := by
  have hd : decodeDocumentM q j = (doc, some DErr.quotaBufferCount) := by
    unfold decodeDocumentM
    rw [h]
    simp [hgt]
  refine ⟨?_, documentFromJson_data j doc h⟩
  unfold decodeM
  rw [hd]

/-- Witness for `c6_buffer_count_quota`: nine declared buffers under the
default limit of eight. -/
theorem c6_buffer_count_quota_witness :
    documentFromJson nineBufJson = .ok doc9 ∧
    doc9.buffers.length > defaultQuotas.maxBufferCount ∧
    decodeM defaultQuotas false nineBufJson [] cbNone = (doc9, some DErr.quotaBufferCount, 0) ∧
    ∀ b ∈ doc9.buffers, b.data = [] := by
  have h : documentFromJson nineBufJson = .ok doc9 := rfl
  have hgt : doc9.buffers.length > defaultQuotas.maxBufferCount := by decide
  exact ⟨h, hgt, (c6_buffer_count_quota defaultQuotas false nineBufJson [] cbNone doc9 h hgt).1,
    (c6_buffer_count_quota defaultQuotas false nineBufJson [] cbNone doc9 h hgt).2⟩

/-- C7.  A valid-sized, non-embedded buffer whose URI is empty, contains
`..`, or starts with a path separator makes `decodeBuffer` fail with a URI
error (`noURI` for the empty URI, `invalidURI` from `validateBufferURI`
otherwise) without ever invoking the resource callback. -/
theorem c7_unsafe_uri_rejected (q : ReadQuotasM) (cb : Cb) (b : BufferM)
    (h1 : b.byteLength ≠ 0) (h2 : b.byteLength ≤ q.maxMemoryAllocation)
    (h3 : bufferIsEmbedded b = false)
    (h4 : b.uri = [] ∨ hasSub ('.' :: ['.']) b.uri = true ∨
      startsWithStr ['/'] b.uri = true ∨ startsWithStr ['\\'] b.uri = true) :
    ∃ e, decodeBufferM q cb b = (b, some e, false) ∧
      (e = DErr.noURI ∨ e = DErr.invalidURI) := by
  have hv : validateBuffer q b = none := by
    unfold validateBuffer
    rw [if_neg h1, if_neg (by omega)]
  by_cases hu : b.uri = []
  · refine ⟨DErr.noURI, ?_, Or.inl rfl⟩
    unfold decodeBufferM
    rw [hv]
    simp [hu]
  · have hV : validateBufferURI b.uri = some DErr.invalidURI := by
      unfold validateBufferURI
      rw [if_pos h4]
    refine ⟨DErr.invalidURI, ?_, Or.inr rfl⟩
    unfold decodeBufferM
    rw [hv]
    simp [hu, h3, hV]

/-- Witness for `c7_unsafe_uri_rejected` at the spec's `../secret.bin`. -/
theorem c7_unsafe_uri_rejected_witness :
    ∃ e, decodeBufferM defaultQuotas cbNone bufDotDot = (bufDotDot, some e, false) ∧
      (e = DErr.noURI ∨ e = DErr.invalidURI) :=
  c7_unsafe_uri_rejected defaultQuotas cbNone bufDotDot (by decide) (by decide) (by decide)
    (Or.inr (Or.inl (by decide)))

/-- C8.  When the extensions envelope itself parses, `Extensions.UnmarshalJSON`
never reports an error, whatever the registry and however its decoders fail:
every key is stored, an unregistered key's value being its exact raw payload
bytes, and a key whose registered decoder fails likewise falling back to the
raw payload. -/
theorem c8_extensions_lenient (α : Type) (reg : Str → Option (Str → Option α))
    (recv : List (Str × ExtVal α)) (data : Str) (kvs : List (Str × Str))
    (h : parseEnvelope data = some kvs) :
    (extensionsUnmarshalJSON reg recv data).2 = none ∧
    (extensionsUnmarshalJSON reg recv data).1 =
      kvs.foldl (fun m kv => upsert m kv.1 (extDispatch reg kv)) recv ∧
    (∀ k v, reg k = none → extDispatch reg (k, v) = ExtVal.raw v) ∧
    (∀ k v dec, reg k = some dec → dec v = none → extDispatch reg (k, v) = ExtVal.raw v) := by
  refine ⟨?_, ?_, ?_, ?_⟩
  · unfold extensionsUnmarshalJSON
    rw [h]
  · unfold extensionsUnmarshalJSON
    rw [h]
  · intro k v hk
    simp [extDispatch, hk]
  · intro k v dec hk hv
    simp [extDispatch, hk, hv]

/-- Witness for `c8_extensions_lenient`: the unregistered key `XYZ_foo` with
payload `{"a":1}` is stored as exactly those bytes, with no error. -/
theorem c8_extensions_lenient_witness :
    (extensionsUnmarshalJSON noReg [] envXYZ).2 = none ∧
    (extensionsUnmarshalJSON noReg [] envXYZ).1 = [(envKey, ExtVal.raw envPayload)] := by
  refine ⟨(c8_extensions_lenient Unit noReg [] envXYZ [(envKey, envPayload)] (by decide)).1, ?_⟩
  decide

end Gltf
